import Mathlib

/-!
Verification development for the nearest-port resolution engine of the
port-finder repository. The TypeScript sources embedded here are
`location.domain-service.ts` (the Resolver), `port-cache.service.ts` (the
Spatial Cache), `location-calculation.service.ts` (grid sizing and scoring
arithmetic), the RabbitMQ consumer's `handlePortCreated` (Cache
Synchronizer), and the `Coordinate` value object.

Modelling conventions:
- JavaScript numbers that the program only compares, adds, multiplies and
  rounds are modelled as rationals (`ℚ`); the query radius, which may be
  `Number.POSITIVE_INFINITY`, is the two-case type `Radius`.
- The external `h3-js` library (cell ids, grid distance, grid disks) and the
  float haversine of `calculateDistance` are transcendental or opaque, so
  they enter the model as an explicit environment `Geo`; every algorithmic
  step around them (ring expansion, scoring, filtering, caching, staleness
  handling) is translated from the TypeScript line by line.
- The Redis cache behind `cache-manager` is a key-value store; it is
  modelled as association lists with first-match lookup. The memo key
  `nearest:lat:lng:radius` built from rounded coordinates is modelled as the
  triple (rounded numerator of lat*1000, same for lng, radius).
- The Port Service HTTP client returns `Except Unit` results: `.error ()`
  models a thrown gateway error, `.ok none` a 404 ("does not exist"),
  `.ok (some dto)` an existing port. `findNearbyPorts` throws on any error.
- Async methods whose awaited effects are deterministic reads/writes are
  modelled as pure state-passing functions; a `Trace` records the
  collaborator interactions (memo reads, store lookups, fallback calls,
  grid searches) that the claims quantify over.
-/

namespace PortFinder

/-- Lookup in an association-list map (first entry with the key wins),
modelling `cacheManager.get`. -/
def mapGet {κ α : Type} [DecidableEq κ] (m : List (κ × α)) (k : κ) : Option α :=
  (m.find? (fun e => decide (e.1 = k))).map (fun e => e.2)

/-- Store under a key, replacing any previous binding, modelling
`cacheManager.set`. -/
def mapSet {κ α : Type} [DecidableEq κ] (m : List (κ × α)) (k : κ) (v : α) : List (κ × α) :=
  (k, v) :: m.filter (fun e => decide (e.1 ≠ k))

/-- Delete a key, modelling `cacheManager.del`. -/
def mapDel {κ α : Type} [DecidableEq κ] (m : List (κ × α)) (k : κ) : List (κ × α) :=
  m.filter (fun e => decide (e.1 ≠ k))

/-- A JavaScript number as the `Coordinate` validator sees it: a finite
rational, `NaN`, or one of the two infinities. -/
inductive JSNum where
  | finite (q : ℚ)
  | nan
  | posInf
  | negInf
deriving DecidableEq, Repr

/-- The class-validator `IsNumber` check with default options (`allowNaN`
and `allowInfinity` both false): true exactly for finite numbers. -/
def isNumberCheck : JSNum → Bool
  | .finite _ => true
  | .nan => false
  | .posInf => false
  | .negInf => false

/-- The class-validator `Min` check: JavaScript `value >= min`, where a
comparison with `NaN` is false and the infinities compare as usual. -/
def jsGe (v : JSNum) (bound : ℚ) : Bool :=
  match v with
  | .finite q => decide (bound ≤ q)
  | .nan => false
  | .posInf => true
  | .negInf => false

/-- The class-validator `Max` check: JavaScript `value <= max`. -/
def jsLe (v : JSNum) (bound : ℚ) : Bool :=
  match v with
  | .finite q => decide (q ≤ bound)
  | .nan => false
  | .posInf => false
  | .negInf => true

/-- The decorators on `Coordinate._latitude`: `IsNumber`, `Min(-90)`,
`Max(90)`. -/
def validLatitude (v : JSNum) : Bool := isNumberCheck v && jsGe v (-90) && jsLe v 90

/-- The decorators on `Coordinate._longitude`: `IsNumber`, `Min(-180)`,
`Max(180)`. -/
def validLongitude (v : JSNum) : Bool := isNumberCheck v && jsGe v (-180) && jsLe v 180

/-- The `Coordinate` value object: two private readonly fields set once in
the constructor and only read through getters, so the model carries the
stored fields themselves. -/
structure Coordinate where
  latitude : JSNum
  longitude : JSNum
deriving DecidableEq, Repr

/-- The `Coordinate` constructor: assign both fields, run `validateSync`,
and throw `Invalid coordinate: ...` when any decorator fails. -/
def createCoordinate (latitude longitude : JSNum) : Except String Coordinate :=
  if validLatitude latitude && validLongitude longitude then
    .ok { latitude := latitude, longitude := longitude }
  else
    .error "Invalid coordinate"

/-- A successfully constructed coordinate, as the domain services consume
it: two finite numbers. All Resolver and cache code below operates on this
type. -/
structure Coord where
  latitude : ℚ
  longitude : ℚ
deriving DecidableEq, Repr

/-- JavaScript `Math.round`: round half toward positive infinity. -/
def jsRound (q : ℚ) : ℤ := (q + 1/2).floor

/-- The query radius: a finite number of kilometres, or the unbounded
default `Number.POSITIVE_INFINITY`. -/
inductive Radius where
  | fin (r : ℚ)
  | inf
deriving DecidableEq, Repr

/-- A `CachedPort` snapshot as stored by `PortCacheService`. -/
structure CachedPort where
  id : String
  name : String
  code : String
  country : String
  coordinate : Coord
  h3Index : String
  isActive : Bool
deriving DecidableEq, Repr

/-- A `NearestPortResult` as returned by `LocationDomainService`. -/
structure NearestPortResult where
  portId : String
  name : String
  code : String
  country : String
  coordinate : Coord
  distanceKm : ℚ
  h3Distance : ℤ
  h3Index : String
deriving DecidableEq, Repr

/-- The memo key of `getNearestPortCacheKey`: the source rounds latitude and
longitude to three decimals (`Math.round(x * 1000) / 1000`) and interpolates
them with the radius into the string `nearest:lat:lng:radius`; the model
keeps the rounded numerators and the radius, an injective image of those
strings. -/
def getNearestPortCacheKey (c : Coord) (radiusKm : Radius) : ℤ × ℤ × Radius :=
  (jsRound (c.latitude * 1000), jsRound (c.longitude * 1000), radiusKm)

/-- The three independent key-value stores of `PortCacheService`: the
`port:id` snapshot map, the `h3:cell:ports` cell index, and the
`nearest:lat:lng:radius` memo. -/
structure CacheState where
  portById : List (String × CachedPort)
  byCell : List (String × List CachedPort)
  nearestMemo : List ((ℤ × ℤ × Radius) × NearestPortResult)
deriving DecidableEq, Repr

/-- `PortCacheService.getPortsByH3Index`: read the cell's entry (absent
reads as empty) and filter out inactive ports at read time. -/
def getPortsByH3Index (s : CacheState) (h3Index : String) : List CachedPort :=
  ((mapGet s.byCell h3Index).getD []).filter (fun p => p.isActive)

/-- `PortCacheService.cachePort`: overwrite the snapshot under `port:id`,
read the active ports of the port's cell, drop any entry with the same id,
push the new snapshot, and store the cell entry back. -/
def cachePort (s : CacheState) (port : CachedPort) : CacheState :=
  let existingPorts := getPortsByH3Index s port.h3Index
  let updatedPorts := (existingPorts.filter (fun p => decide (p.id ≠ port.id))).concat port
  { s with
    portById := mapSet s.portById port.id port,
    byCell := mapSet s.byCell port.h3Index updatedPorts }

/-- `PortCacheService.getPort`. -/
def getPort (s : CacheState) (portId : String) : Option CachedPort :=
  mapGet s.portById portId

/-- `PortCacheService.invalidatePortCache`. -/
def invalidatePortCache (s : CacheState) (portId : String) : CacheState :=
  { s with portById := mapDel s.portById portId }

/-- `PortCacheService.invalidateH3IndexCache`. -/
def invalidateH3IndexCache (s : CacheState) (h3Index : String) : CacheState :=
  { s with byCell := mapDel s.byCell h3Index }

/-- `PortCacheService.getNearestPortFromCache`. -/
def getNearestPortFromCache (s : CacheState) (c : Coord) (radiusKm : Radius) :
    Option NearestPortResult :=
  mapGet s.nearestMemo (getNearestPortCacheKey c radiusKm)

/-- `PortCacheService.cacheNearestPortResult`. -/
def cacheNearestPortResult (s : CacheState) (c : Coord) (result : NearestPortResult)
    (radiusKm : Radius) : CacheState :=
  { s with nearestMemo := mapSet s.nearestMemo (getNearestPortCacheKey c radiusKm) result }

/-- The fixed radius buckets that `invalidateNearestPortCache` enumerates. -/
def invalidationRadiusValues : List ℚ := [50, 100, 200, 500]

/-- `PortCacheService.invalidateNearestPortCache`: delete the memo entries
of the coordinate's rounded key for each of the fixed radius buckets. -/
def invalidateNearestPortCache (s : CacheState) (c : Coord) : CacheState :=
  { s with
    nearestMemo :=
      invalidationRadiusValues.foldl
        (fun m r => mapDel m (getNearestPortCacheKey c (Radius.fin r))) s.nearestMemo }

/-- The external geometry primitives used by `LocationCalculationService`:
`latLngToCell` (at the fixed default resolution 7), `gridDistance`,
`gridDisk` of `h3-js`, and the float haversine of `calculateDistance`.
They are opaque library and floating-point functions, so the model takes
them as an environment; every caller below is translated from the
TypeScript. -/
structure Geo where
  latLngToCell : Coord → String
  gridDistance : String → String → ℤ
  gridDisk : String → ℤ → List String
  haversine : Coord → Coord → ℚ

/-- `LocationCalculationService.calculateRequiredH3Rings`: rings needed for
a radius at resolution 7 (average edge 2.8 km), `Math.ceil(radiusKm / 2.8)`,
capped at 10. -/
def calculateRequiredH3Rings (radiusKm : ℚ) : ℤ :=
  min (radiusKm / (14/5)).ceil 10

/-- One iteration body of the ring loop of `findNearestPortUsingH3`: all
cached active ports across the cells of the disk of the given ring
(`getH3Neighbors` returns `gridDisk(h3Index, ring)`; pushing an empty cell
list is a no-op, so the collection is a flat map). -/
def collectRing (geo : Geo) (s : CacheState) (h3Index : String) (ring : ℕ) : List CachedPort :=
  (geo.gridDisk h3Index (ring : ℤ)).flatMap (fun cell => getPortsByH3Index s cell)

/-- The `while (ring <= maxRing && ports.length === 0)` loop of
`findNearestPortUsingH3`, written with structural fuel so that it reduces;
the loop runs at most `maxRing + 1` iterations, which is exactly the fuel
`ringLoop` passes, so the fuel never runs out before the guard fails. -/
def ringLoopAux (geo : Geo) (s : CacheState) (h3Index : String) (maxRing : ℤ) :
    ℕ → ℕ → List CachedPort
  | 0, _ => []
  | fuel + 1, ring =>
    if (ring : ℤ) ≤ maxRing then
      if (collectRing geo s h3Index ring).isEmpty then
        ringLoopAux geo s h3Index maxRing fuel (ring + 1)
      else collectRing geo s h3Index ring
    else []

/-- The ring-expansion loop of `findNearestPortUsingH3`, starting at ring 0. -/
def ringLoop (geo : Geo) (s : CacheState) (h3Index : String) (maxRing : ℤ) : List CachedPort :=
  ringLoopAux geo s h3Index maxRing (maxRing + 1).toNat 0

/-- Build the `NearestPortResult` literal of the scoring loop. -/
def mkResult (p : CachedPort) (distance : ℚ) (h3Distance : ℤ) : NearestPortResult :=
  { portId := p.id
    name := p.name
    code := p.code
    country := p.country
    coordinate := p.coordinate
    distanceKm := distance
    h3Distance := h3Distance
    h3Index := p.h3Index }

/-- The km-limit guard of the scoring loop:
`Number.isFinite(maxRadiusKm) ? distance <= maxRadiusKm : true`. -/
def withinKmLimit (maxRadiusKm : Radius) (distance : ℚ) : Prop :=
  match maxRadiusKm with
  | .fin r => distance ≤ r
  | .inf => True

instance (maxRadiusKm : Radius) (distance : ℚ) : Decidable (withinKmLimit maxRadiusKm distance) :=
  match maxRadiusKm with
  | .fin r => inferInstanceAs (Decidable (distance ≤ r))
  | .inf => inferInstanceAs (Decidable True)

/-- The `score < minDistance` comparison, where `minDistance` starts at
`Infinity` (the accumulator is then still `none`). -/
def beatsMin (score : ℚ) : Option (NearestPortResult × ℚ) → Prop
  | none => True
  | some (_, m) => score < m

instance (score : ℚ) (acc : Option (NearestPortResult × ℚ)) : Decidable (beatsMin score acc) :=
  match acc with
  | none => inferInstanceAs (Decidable True)
  | some (_, m) => inferInstanceAs (Decidable (score < m))

/-- One iteration of the scoring loop of `findNearestPortUsingH3`: compute
grid distance, haversine and the composite score `h3Distance * 1000 +
distance`; skip the candidate when it is beyond 10 rings (`continue`);
otherwise keep it when it beats the running minimum and passes both the
ring and the km limits. -/
def scoreStep (geo : Geo) (c : Coord) (h3Index : String) (maxRadiusKm : Radius)
    (acc : Option (NearestPortResult × ℚ)) (p : CachedPort) : Option (NearestPortResult × ℚ) :=
  let h3Distance := geo.gridDistance h3Index p.h3Index
  let distance := geo.haversine c p.coordinate
  let score := (h3Distance : ℚ) * 1000 + distance
  if ¬ (h3Distance ≤ 10) then acc
  else if beatsMin score acc ∧ h3Distance ≤ 10 ∧ withinKmLimit maxRadiusKm distance then
    some (mkResult p distance h3Distance, score)
  else acc

/-- `LocationDomainService.findNearestPortUsingH3`: compute the query cell,
derive `maxRing` (`calculateRequiredH3Rings` when the radius is finite, 10
otherwise, capped once more at 10), run the ring-expansion loop, then score
every collected candidate and keep the minimum-score eligible one. -/
def findNearestPortUsingH3 (geo : Geo) (s : CacheState) (coordinate : Coord)
    (maxRadiusKm : Radius) : Option NearestPortResult :=
  let h3Index := geo.latLngToCell coordinate
  let calculatedRings : ℤ :=
    match maxRadiusKm with
    | .fin r => calculateRequiredH3Rings r
    | .inf => 10
  let maxRing := min calculatedRings 10
  let ports := ringLoop geo s h3Index maxRing
  (ports.foldl (scoreStep geo coordinate h3Index maxRadiusKm) none).map (fun x => x.1)

/-- Stable insertion into a list sorted ascending by `key`: the new element
goes after every element whose key is not greater, which is how the stable
`Array.prototype.sort` of `findPortsInRadius` orders ties. -/
def insertSortedBy {α : Type} (key : α → ℚ) (a : α) : List α → List α
  | [] => [a]
  | b :: l => if key a < key b then a :: b :: l else b :: insertSortedBy key a l

/-- The stable ascending sort `portsInRadius.sort((a, b) => a.distanceKm -
b.distanceKm)` (JavaScript sort is stable, and a stable sort is determined
by its comparator, so insertion sort models it exactly). -/
def sortBy {α : Type} (key : α → ℚ) (l : List α) : List α :=
  l.foldl (fun acc a => insertSortedBy key a acc) []

/-- `LocationDomainService.findPortsInRadius`: one disk of
`calculateRequiredH3Rings(radiusKm)` rings around the query cell, collect
every cached active port of those cells, keep those with haversine distance
within the radius, and sort ascending by distance. -/
def findPortsInRadius (geo : Geo) (s : CacheState) (coordinate : Coord) (radiusKm : ℚ) :
    List NearestPortResult :=
  let h3Index := geo.latLngToCell coordinate
  let ringCount := calculateRequiredH3Rings radiusKm
  let h3Cells := geo.gridDisk h3Index ringCount
  let allPorts := h3Cells.flatMap (fun cell => getPortsByH3Index s cell)
  let portsInRadius :=
    (allPorts.filter (fun p => decide (geo.haversine coordinate p.coordinate ≤ radiusKm))).map
      (fun p => mkResult p (geo.haversine coordinate p.coordinate)
        (geo.gridDistance h3Index p.h3Index))
  sortBy (fun r => r.distanceKm) portsInRadius

/-- A port DTO as returned by the Port Service HTTP client (the fields the
Resolver reads: id, name, code, country and the raw coordinate). -/
structure PortDto where
  id : String
  name : String
  code : String
  country : String
  coordinate : Coord
deriving DecidableEq, Repr

/-- The `PortServiceClient` collaborator. `getPortById` resolves a 404 to
`none` ("does not exist") and rethrows every other failure as a gateway
error (`.error ()`); `findNearbyPorts` throws on any failure. -/
structure Store where
  getPortById : String → Except Unit (Option PortDto)
  findNearbyPorts : Coord → ℚ → Except Unit (List PortDto)

/-- The collaborator interactions of one `findNearestPort` run: how often
the memoized-result cache was consulted, which ids were looked up in the
Authoritative Store, which radii were sent to `findNearbyPorts`, and how
many grid searches ran. -/
structure Trace where
  memoReads : ℕ
  getByIdCalls : List String
  nearbyCalls : List ℚ
  h3Searches : ℕ
deriving DecidableEq, Repr

/-- `LocationDomainService.hydrateCacheAround`: fetch nearby ports from the
Port Service and write each one into the cache (snapshot plus cell
membership) with a freshly computed cell, returning the fetched list. -/
def hydrateCacheAround (geo : Geo) (store : Store) (s : CacheState) (coordinate : Coord)
    (radiusKm : ℚ) : Except Unit (List PortDto × CacheState) :=
  match store.findNearbyPorts coordinate radiusKm with
  | .error e => .error e
  | .ok nearby =>
    if nearby.isEmpty then .ok ([], s)
    else
      let s' := nearby.foldl
        (fun st p =>
          cachePort st
            { id := p.id
              name := p.name
              code := p.code
              country := p.country
              coordinate := p.coordinate
              h3Index := geo.latLngToCell p.coordinate
              isActive := true }) s
      .ok (nearby, s')

/-- `LocationDomainService.findNearestViaPortService`: hydrate the cache
from the store, then score the fetched DTOs with the same composite rule,
still rejecting candidates beyond 10 rings. -/
def findNearestViaPortService (geo : Geo) (store : Store) (s : CacheState) (coordinate : Coord)
    (radiusKm : ℚ) : Except Unit (Option NearestPortResult × CacheState) :=
  match hydrateCacheAround geo store s coordinate radiusKm with
  | .error e => .error e
  | .ok (nearby, s') =>
    if nearby.isEmpty then .ok (none, s')
    else
      let h3Index := geo.latLngToCell coordinate
      let best := nearby.foldl
        (fun acc p =>
          let candidateH3 := geo.latLngToCell p.coordinate
          let h3Distance := geo.gridDistance h3Index candidateH3
          let distance := geo.haversine coordinate p.coordinate
          let score := (h3Distance : ℚ) * 1000 + distance
          if h3Distance > 10 then acc
          else if beatsMin score acc then
            some
              (({ portId := p.id
                  name := p.name
                  code := p.code
                  country := p.country
                  coordinate := p.coordinate
                  distanceKm := distance
                  h3Distance := h3Distance
                  h3Index := candidateH3 } : NearestPortResult), score)
          else acc) none
      .ok (best.map (fun x => x.1), s')

/-- The progressive fallback radii ladder of `findNearestPort`. -/
def fallbackRadii (maxRadiusKm : Radius) : List ℚ :=
  match maxRadiusKm with
  | .fin r => [min r 50, min r 200, min r 500]
  | .inf => [50, 200, 500, 1000, 2000, 5000, 10000]

/-- The `for (const radius of fallbackRadii)` loop of `findNearestPort`:
try each radius in order, stopping at the first that yields a candidate;
the returned list records the radii actually tried. -/
def fallbackLoop (geo : Geo) (store : Store) (coordinate : Coord) :
    CacheState → List ℚ → Except Unit (Option NearestPortResult × CacheState × List ℚ)
  | s, [] => .ok (none, s, [])
  | s, r :: rest =>
    match findNearestViaPortService geo store s coordinate r with
    | .error e => .error e
    | .ok (some res, s') => .ok (some res, s', [r])
    | .ok (none, s') =>
      match fallbackLoop geo store coordinate s' rest with
      | .error e => .error e
      | .ok (res, s'', rs) => .ok (res, s'', r :: rs)

/-- The grid-only-mode flag: `LOCATION_H3_ONLY` unset, or equal to "true"
after lowercasing. -/
def isH3Only (cfg : Option String) : Bool :=
  match cfg with
  | none => true
  | some v => v.toLower == "true"

/-- The staleness guard and memoization tail of `findNearestPort` (lines
103–136): when a winning candidate exists, verify it in the store; on a 404
invalidate its snapshot, its cell entry (when the cell id is truthy) and the
coordinate's memo buckets, then run exactly one grid re-search whose result,
when non-null, is memoized and returned with no further existence check; on
a thrown store error discard the candidate ("treating as missing") without
touching the cache; when the guard passes, memoize and return the
candidate. -/
def stalenessGuardAndFinish (geo : Geo) (store : Store) (c : Coord) (maxRadiusKm : Radius)
    (s : CacheState) (t : Trace) :
    Option NearestPortResult → Option NearestPortResult × CacheState × Trace
  | none => (none, s, t)
  | some n =>
    let t1 := { t with getByIdCalls := t.getByIdCalls ++ [n.portId] }
    match store.getPortById n.portId with
    | .ok (some _) => (some n, cacheNearestPortResult s c n maxRadiusKm, t1)
    | .ok none =>
      let sA := invalidatePortCache s n.portId
      let sB := if n.h3Index = "" then sA else invalidateH3IndexCache sA n.h3Index
      let sC := invalidateNearestPortCache sB c
      let t2 := { t1 with h3Searches := t1.h3Searches + 1 }
      match findNearestPortUsingH3 geo sC c maxRadiusKm with
      | some n2 => (some n2, cacheNearestPortResult sC c n2 maxRadiusKm, t2)
      | none => (none, sC, t2)
    | .error _ => (none, s, t1)

/-- The search core of `findNearestPort` (lines 74–136): the grid search,
the fallback ladder when the grid found nothing and grid-only mode is off,
then the staleness guard and memoization tail. -/
def mainSearch (geo : Geo) (store : Store) (h3Only : Bool) (c : Coord) (maxRadiusKm : Radius)
    (s : CacheState) (t : Trace) :
    Except Unit (Option NearestPortResult × CacheState × Trace) :=
  let t1 := { t with h3Searches := t.h3Searches + 1 }
  match findNearestPortUsingH3 geo s c maxRadiusKm with
  | some n => .ok (stalenessGuardAndFinish geo store c maxRadiusKm s t1 (some n))
  | none =>
    if h3Only then .ok (stalenessGuardAndFinish geo store c maxRadiusKm s t1 none)
    else
      match fallbackLoop geo store c s (fallbackRadii maxRadiusKm) with
      | .error e => .error e
      | .ok (res, s', rs) =>
        .ok (stalenessGuardAndFinish geo store c maxRadiusKm s'
          { t1 with nearbyCalls := t1.nearbyCalls ++ rs } res)

/-- `LocationDomainService.findNearestPort`: read the grid-only flag; unless
it is set, consult the memoized result for (coordinate, radius) and, on a
hit, validate it against the store — returning it if it still exists,
invalidating the stale entries on a 404, or invalidating just the memo
buckets when the store call throws — then run the search core. The
fire-and-forget `NearestPortRequestedEvent` publish has no effect on the
returned data and is not modelled. -/
def findNearestPort (geo : Geo) (store : Store) (cfg : Option String) (s : CacheState)
    (coordinate : Coord) (maxRadiusKm : Radius) :
    Except Unit (Option NearestPortResult × CacheState × Trace) :=
  let h3Only := isH3Only cfg
  let t0 : Trace := { memoReads := 0, getByIdCalls := [], nearbyCalls := [], h3Searches := 0 }
  if h3Only then mainSearch geo store h3Only coordinate maxRadiusKm s t0
  else
    let t1 := { t0 with memoReads := 1 }
    match getNearestPortFromCache s coordinate maxRadiusKm with
    | none => mainSearch geo store h3Only coordinate maxRadiusKm s t1
    | some cachedResult =>
      let t2 := { t1 with getByIdCalls := t1.getByIdCalls ++ [cachedResult.portId] }
      match store.getPortById cachedResult.portId with
      | .ok (some _) => .ok (some cachedResult, s, t2)
      | .ok none =>
        let s1 := invalidatePortCache s cachedResult.portId
        let s2 := invalidateNearestPortCache s1 coordinate
        let s3 := if cachedResult.h3Index = "" then s2
          else invalidateH3IndexCache s2 cachedResult.h3Index
        mainSearch geo store h3Only coordinate maxRadiusKm s3 t2
      | .error _ =>
        mainSearch geo store h3Only coordinate maxRadiusKm
          (invalidateNearestPortCache s coordinate) t2

/-- The payload of a `port.created` event as the RabbitMQ consumer reads
it. -/
structure PortCreatedPayload where
  id : String
  name : String
  code : String
  country : String
  coordinate : Coord
deriving DecidableEq, Repr

/-- The consumer's `handlePortCreated`: rebuild the coordinate, compute the
cell, and hand the snapshot (active) to `cachePort`. -/
def handlePortCreated (geo : Geo) (event : PortCreatedPayload) (s : CacheState) : CacheState :=
  cachePort s
    { id := event.id
      name := event.name
      code := event.code
      country := event.country
      coordinate := event.coordinate
      h3Index := geo.latLngToCell event.coordinate
      isActive := true }

instance {ε α : Type} [DecidableEq ε] [DecidableEq α] : DecidableEq (Except ε α) := fun a b =>
  match a, b with
  | .error x, .error y =>
    match decEq x y with
    | isTrue h => isTrue (by rw [h])
    | isFalse h => isFalse (by intro hc; cases hc; exact h rfl)
  | .error _, .ok _ => isFalse (by intro hc; cases hc)
  | .ok _, .error _ => isFalse (by intro hc; cases hc)
  | .ok x, .ok y =>
    match decEq x y with
    | isTrue h => isTrue (by rw [h])
    | isFalse h => isFalse (by intro hc; cases hc; exact h rfl)

/-- The ring bound stated by the spec for `findNearestPortUsingH3`:
min(requiredRings(radiusBound), hardCap 10) when the radius bound is
finite, 10 otherwise. -/
def claimedMaxRing : Radius → ℤ
  | .fin r => min (calculateRequiredH3Rings r) 10
  | .inf => 10

/-- Query coordinate of the concrete scenarios below. -/
def coordW : Coord := ⟨0, 0⟩

/-- A cached port in cell "C". -/
def portW : CachedPort :=
  ⟨"P", "PortP", "PPC", "TR", ⟨1, 1⟩, "C", true⟩

/-- A second cached port in cell "D". -/
def portW2 : CachedPort :=
  ⟨"Q", "PortQ", "QQC", "TR", ⟨2, 2⟩, "D", true⟩

/-- The nearest-port result the grid search computes for `portW` under
`geoW` (grid distance 0, haversine 1). -/
def resW : NearestPortResult := ⟨"P", "PortP", "PPC", "TR", ⟨1, 1⟩, 1, 0, "C"⟩

/-- A geometry environment whose query cell is "C": the disk of ring 0 is
just the centre, wider disks add cell "D". -/
def geoW : Geo :=
  { latLngToCell := fun _ => "C"
    gridDistance := fun _ _ => 0
    gridDisk := fun cell r => if r = 0 then [cell] else [cell, "D"]
    haversine := fun _ _ => 1 }

/-- Cache holding `portW` in cell "C" and a memoized match for `coordW`
under the (non-bucket) radius 75 pointing at `portW`. -/
def cacheW1 : CacheState :=
  ⟨[], [("C", [portW])], [((0, 0, Radius.fin 75), resW)]⟩

/-- Cache holding `portW` in cell "C" and `portW2` in cell "D". -/
def cacheW2 : CacheState := ⟨[], [("C", [portW]), ("D", [portW2])], []⟩

/-- An Authoritative Store from which every port has been removed:
`getPortById` resolves to "does not exist" for every id. -/
def storeGone : Store := ⟨fun _ => .ok none, fun _ _ => .ok []⟩

/-- An Authoritative Store that is unreachable: `getPortById` throws for
every id. -/
def storeErr : Store := ⟨fun _ => .error (), fun _ _ => .ok []⟩

/-- Query coordinate of the grid-dominance scenario. -/
def coordG : Coord := ⟨0, 0⟩

/-- Grid-dominance scenario, candidate at grid distance 0, haversine 4 km. -/
def portG0 : CachedPort := ⟨"P0", "Port0", "P0C", "TR", ⟨1, 0⟩, "C", true⟩

/-- Candidate at grid distance 1, haversine 0.5 km. -/
def portG1 : CachedPort := ⟨"P1", "Port1", "P1C", "TR", ⟨2, 0⟩, "D", true⟩

/-- Candidate at grid distance 2, haversine 0.1 km. -/
def portG2 : CachedPort := ⟨"P2", "Port2", "P2C", "TR", ⟨3, 0⟩, "E", true⟩

/-- Geometry of the grid-dominance scenario: the query falls in cell "C";
cells "C", "D", "E" are at grid distance 0, 1, 2 from it; the three
candidate coordinates are at haversine 4, 0.5 and 0.1 km. -/
def geoG : Geo :=
  { latLngToCell := fun _ => "C"
    gridDistance := fun _ cell => if cell = "C" then 0 else if cell = "D" then 1 else 2
    gridDisk := fun cell _ => [cell]
    haversine := fun _ c2 =>
      if c2 = (⟨1, 0⟩ : Coord) then 4 else if c2 = ⟨2, 0⟩ then 1/2 else 1/10 }

/-- The three grid-dominance candidates, collected together at ring 0. -/
def cacheG : CacheState := ⟨[], [("C", [portG0, portG1, portG2])], []⟩

/-- A store still holding the winning candidate of the grid-dominance
scenario. -/
def storeG : Store :=
  ⟨fun _ => .ok (some ⟨"P0", "Port0", "P0C", "TR", ⟨1, 0⟩⟩), fun _ _ => .ok []⟩

/-- Query coordinate of the radius-query scenario. -/
def coordR : Coord := ⟨0, 0⟩

/-- Radius-query scenario, candidate at 10 km. -/
def portRa : CachedPort := ⟨"Pa", "PortA", "PAC", "TR", ⟨10, 0⟩, "C", true⟩

/-- Candidate at 150 km. -/
def portRb : CachedPort := ⟨"Pb", "PortB", "PBC", "TR", ⟨20, 0⟩, "C", true⟩

/-- Candidate at 99.9 km. -/
def portRc : CachedPort := ⟨"Pc", "PortC", "PCC", "TR", ⟨30, 0⟩, "C", true⟩

/-- Candidate at 0 km. -/
def portRd : CachedPort := ⟨"Pd", "PortD", "PDC", "TR", ⟨40, 0⟩, "C", true⟩

/-- Candidate at 100.1 km. -/
def portRe : CachedPort := ⟨"Pe", "PortE", "PEC", "TR", ⟨50, 0⟩, "C", true⟩

/-- Geometry of the radius-query scenario: one cell, five candidates at
haversine distances 10, 150, 99.9, 0 and 100.1 km. -/
def geoR : Geo :=
  { latLngToCell := fun _ => "C"
    gridDistance := fun _ _ => 0
    gridDisk := fun cell _ => [cell]
    haversine := fun _ c2 =>
      if c2 = (⟨10, 0⟩ : Coord) then 10
      else if c2 = ⟨20, 0⟩ then 150
      else if c2 = ⟨30, 0⟩ then 999/10
      else if c2 = ⟨40, 0⟩ then 0
      else 1001/10 }

/-- The five radius-query candidates in the query cell. -/
def cacheR : CacheState :=
  ⟨[], [("C", [portRa, portRb, portRc, portRd, portRe])], []⟩

theorem find?_key_filter_ne {κ α : Type} [DecidableEq κ] (m : List (κ × α)) (k k' : κ)
    (h : k' ≠ k) :
    (m.filter (fun e => decide (e.1 ≠ k))).find? (fun e => decide (e.1 = k')) =
      m.find? (fun e => decide (e.1 = k')) := by
  rw [List.find?_filter]
  have hp : (fun e : κ × α => decide ((decide (e.1 ≠ k)) = true ∧ (decide (e.1 = k')) = true))
      = (fun e : κ × α => decide (e.1 = k')) := by
    funext e
    by_cases h1 : e.1 = k
    · simp [h1, Ne.symm h]
    · simp [h1]
  rw [hp]

theorem mapGet_set_self {κ α : Type} [DecidableEq κ] (m : List (κ × α)) (k : κ) (v : α) :
    mapGet (mapSet m k v) k = some v := by
  unfold mapGet mapSet
  rw [List.find?_cons_of_pos _ (by simp)]
  rfl

theorem mapGet_set_ne {κ α : Type} [DecidableEq κ] (m : List (κ × α)) (k k' : κ) (v : α)
    (h : k' ≠ k) : mapGet (mapSet m k v) k' = mapGet m k' := by
  unfold mapGet mapSet
  rw [List.find?_cons_of_neg _ (by simpa using Ne.symm h)]
  rw [find?_key_filter_ne m k k' h]

theorem mapGet_del_self {κ α : Type} [DecidableEq κ] (m : List (κ × α)) (k : κ) :
    mapGet (mapDel m k) k = none := by
  unfold mapGet mapDel
  rw [List.find?_eq_none.2]
  · rfl
  · intro e he
    have := (List.mem_filter.1 he).2
    simp only [decide_eq_true_eq] at this ⊢
    exact this

theorem mapGet_del_ne {κ α : Type} [DecidableEq κ] (m : List (κ × α)) (k k' : κ)
    (h : k' ≠ k) : mapGet (mapDel m k) k' = mapGet m k' := by
  unfold mapGet mapDel
  rw [find?_key_filter_ne m k k' h]

theorem mapGet_mem {κ α : Type} [DecidableEq κ] (m : List (κ × α)) (k : κ) (v : α)
    (h : mapGet m k = some v) : (k, v) ∈ m := by
  unfold mapGet at h
  cases hf : m.find? (fun e => decide (e.1 = k)) with
  | none => rw [hf] at h; exact absurd h (by simp)
  | some e =>
    rw [hf] at h
    have hp := List.find?_some hf
    have hmem := List.mem_of_find?_eq_some hf
    obtain ⟨k0, v0⟩ := e
    simp only [decide_eq_true_eq] at hp
    simp only [Option.map] at h
    cases h
    cases hp
    exact hmem

theorem validLatitude_iff (v : JSNum) :
    validLatitude v = true ↔ ∃ a : ℚ, v = .finite a ∧ -90 ≤ a ∧ a ≤ 90 := by
  cases v <;> simp [validLatitude, isNumberCheck, jsGe, jsLe, and_assoc]

theorem validLongitude_iff (v : JSNum) :
    validLongitude v = true ↔ ∃ b : ℚ, v = .finite b ∧ -180 ≤ b ∧ b ≤ 180 := by
  cases v <;> simp [validLongitude, isNumberCheck, jsGe, jsLe, and_assoc]

theorem createCoordinate_error (lat lng : JSNum)
    (h : validLatitude lat = false ∨ validLongitude lng = false) :
    createCoordinate lat lng = .error "Invalid coordinate" := by
  unfold createCoordinate
  rcases h with h | h <;> rw [if_neg (by simp [h])]

/-- C8: a successfully constructed `Coordinate` stores exactly the
constructor's arguments (they are private readonly fields with only
getters, so they never change afterwards), and both are finite numbers in
range — latitude in [-90, 90], longitude in [-180, 180]; construction with
any out-of-range or non-finite (NaN or infinite) value throws. -/
theorem createCoordinate_spec (lat lng : JSNum) :
    (∀ c, createCoordinate lat lng = .ok c →
      c.latitude = lat ∧ c.longitude = lng ∧
      (∃ a : ℚ, lat = .finite a ∧ -90 ≤ a ∧ a ≤ 90) ∧
      (∃ b : ℚ, lng = .finite b ∧ -180 ≤ b ∧ b ≤ 180)) ∧
    (∀ a : ℚ, lat = .finite a → (a < -90 ∨ 90 < a) →
      createCoordinate lat lng = .error "Invalid coordinate") ∧
    (∀ b : ℚ, lng = .finite b → (b < -180 ∨ 180 < b) →
      createCoordinate lat lng = .error "Invalid coordinate") ∧
    ((lat = .nan ∨ lat = .posInf ∨ lat = .negInf ∨
      lng = .nan ∨ lng = .posInf ∨ lng = .negInf) →
      createCoordinate lat lng = .error "Invalid coordinate") := by
  refine ⟨?_, ?_, ?_, ?_⟩
  · intro c hc
    unfold createCoordinate at hc
    split at hc
    case isTrue h =>
      cases hc
      simp only [Bool.and_eq_true] at h
      exact ⟨rfl, rfl, (validLatitude_iff lat).1 h.1, (validLongitude_iff lng).1 h.2⟩
    case isFalse h => cases hc
  · intro a ha hrange
    apply createCoordinate_error
    left
    subst ha
    rcases hrange with h | h
    · simp [validLatitude, isNumberCheck, jsGe, jsLe]
      intro h'
      exact absurd h' (not_le.2 h)
    · simp [validLatitude, isNumberCheck, jsGe, jsLe]
      intro _
      exact h
  · intro b hb hrange
    apply createCoordinate_error
    right
    subst hb
    rcases hrange with h | h
    · simp [validLongitude, isNumberCheck, jsGe, jsLe]
      intro h'
      exact absurd h' (not_le.2 h)
    · simp [validLongitude, isNumberCheck, jsGe, jsLe]
      intro _
      exact h
  · intro h
    apply createCoordinate_error
    rcases h with h | h | h | h | h | h <;> subst h <;>
      simp [validLatitude, validLongitude, isNumberCheck]

theorem invalidateNearestPortCache_memo (s : CacheState) (c : Coord) :
    (invalidateNearestPortCache s c).nearestMemo =
      mapDel (mapDel (mapDel (mapDel s.nearestMemo
        (getNearestPortCacheKey c (Radius.fin 50)))
        (getNearestPortCacheKey c (Radius.fin 100)))
        (getNearestPortCacheKey c (Radius.fin 200)))
        (getNearestPortCacheKey c (Radius.fin 500)) := rfl

theorem getNearestPortCacheKey_ne_of_radius_ne (c : Coord) (r r' : Radius) (h : r ≠ r') :
    getNearestPortCacheKey c r ≠ getNearestPortCacheKey c r' := by
  intro hk
  apply h
  have := congrArg (fun k : ℤ × ℤ × Radius => k.2.2) hk
  simpa [getNearestPortCacheKey] using this

theorem invalidateNearestPortCache_bucket_none (s : CacheState) (c : Coord) (r : ℚ)
    (hr : r ∈ invalidationRadiusValues) :
    mapGet (invalidateNearestPortCache s c).nearestMemo
      (getNearestPortCacheKey c (Radius.fin r)) = none := by
  rw [invalidateNearestPortCache_memo]
  have hne : ∀ r' : ℚ, r ≠ r' →
      getNearestPortCacheKey c (Radius.fin r) ≠ getNearestPortCacheKey c (Radius.fin r') := by
    intro r' hrr'
    exact getNearestPortCacheKey_ne_of_radius_ne c _ _ (by simp [hrr'])
  fin_cases hr
  · rw [mapGet_del_ne _ _ _ (hne 500 (by norm_num)),
      mapGet_del_ne _ _ _ (hne 200 (by norm_num)),
      mapGet_del_ne _ _ _ (hne 100 (by norm_num)), mapGet_del_self]
  · rw [mapGet_del_ne _ _ _ (hne 500 (by norm_num)),
      mapGet_del_ne _ _ _ (hne 200 (by norm_num)), mapGet_del_self]
  · rw [mapGet_del_ne _ _ _ (hne 500 (by norm_num)), mapGet_del_self]
  · rw [mapGet_del_self]

theorem invalidateNearestPortCache_frame (s : CacheState) (c : Coord) (k : ℤ × ℤ × Radius)
    (hk : ∀ r : ℚ, r ∈ invalidationRadiusValues → k ≠ getNearestPortCacheKey c (Radius.fin r)) :
    mapGet (invalidateNearestPortCache s c).nearestMemo k = mapGet s.nearestMemo k := by
  rw [invalidateNearestPortCache_memo]
  rw [mapGet_del_ne _ _ _ (hk 500 (by norm_num [invalidationRadiusValues])),
    mapGet_del_ne _ _ _ (hk 200 (by norm_num [invalidationRadiusValues])),
    mapGet_del_ne _ _ _ (hk 100 (by norm_num [invalidationRadiusValues])),
    mapGet_del_ne _ _ _ (hk 50 (by norm_num [invalidationRadiusValues]))]

/-- C6: `invalidateNearestPortCache` deletes the memo entries of exactly
the radius buckets 50, 100, 200 and 500 under the coordinate's rounded key
(so after it no bucketed memo entry remains for that rounded coordinate),
every memo entry under any other key — in particular one stored under
another radius value such as the unbounded default used by
`findNearestPort` — is unchanged, and the snapshot and cell-index stores
are untouched. -/
theorem invalidateNearestPortCache_spec (s : CacheState) (c : Coord) :
    (∀ r : ℚ, r ∈ invalidationRadiusValues →
      getNearestPortFromCache (invalidateNearestPortCache s c) c (Radius.fin r) = none) ∧
    (∀ k : ℤ × ℤ × Radius,
      (∀ r : ℚ, r ∈ invalidationRadiusValues → k ≠ getNearestPortCacheKey c (Radius.fin r)) →
      mapGet (invalidateNearestPortCache s c).nearestMemo k = mapGet s.nearestMemo k) ∧
    (invalidateNearestPortCache s c).portById = s.portById ∧
    (invalidateNearestPortCache s c).byCell = s.byCell :=
  ⟨fun r hr => invalidateNearestPortCache_bucket_none s c r hr,
   fun k hk => invalidateNearestPortCache_frame s c k hk, rfl, rfl⟩

theorem cacheState_ext (x y : CacheState) (h1 : x.portById = y.portById)
    (h2 : x.byCell = y.byCell) (h3 : x.nearestMemo = y.nearestMemo) : x = y := by
  cases x
  cases y
  simp_all

theorem filter_idem {α : Type} (f : α → Bool) (l : List α) :
    (l.filter f).filter f = l.filter f := by
  induction l with
  | nil => rfl
  | cons a t ih =>
    rw [List.filter_cons]
    split
    case isTrue h => rw [List.filter_cons, if_pos h, ih]
    case isFalse h => exact ih

theorem mapSet_set_self {κ α : Type} [DecidableEq κ] (m : List (κ × α)) (k : κ) (v w : α) :
    mapSet (mapSet m k v) k w = mapSet m k w := by
  unfold mapSet
  rw [List.filter_cons_of_neg (by simp), filter_idem]

theorem cachePort_portById (s : CacheState) (p : CachedPort) :
    (cachePort s p).portById = mapSet s.portById p.id p := rfl

theorem cachePort_byCell (s : CacheState) (p : CachedPort) :
    (cachePort s p).byCell =
      mapSet s.byCell p.h3Index
        (((getPortsByH3Index s p.h3Index).filter (fun q => decide (q.id ≠ p.id))).concat p) :=
  rfl

theorem cachePort_memo (s : CacheState) (p : CachedPort) :
    (cachePort s p).nearestMemo = s.nearestMemo := rfl

theorem getPortsByH3Index_cachePort_self (s : CacheState) (p : CachedPort)
    (hp : p.isActive = true) :
    getPortsByH3Index (cachePort s p) p.h3Index =
      ((getPortsByH3Index s p.h3Index).filter (fun q => decide (q.id ≠ p.id))).concat p := by
  show (((mapGet (cachePort s p).byCell p.h3Index).getD []).filter (fun q => q.isActive)) = _
  rw [cachePort_byCell, mapGet_set_self, Option.getD_some]
  rw [List.concat_eq_append, List.filter_append, List.filter_comm]
  have hM : (getPortsByH3Index s p.h3Index).filter (fun q => q.isActive)
      = getPortsByH3Index s p.h3Index := by
    show ((((mapGet s.byCell p.h3Index).getD []).filter (fun q => q.isActive)).filter
      (fun q => q.isActive)) = _
    exact filter_idem _ _
  rw [hM]
  have hone : [p].filter (fun q => q.isActive) = [p] := by simp [hp]
  rw [hone]

theorem cachePort_active_twice (s : CacheState) (p : CachedPort) (hp : p.isActive = true) :
    cachePort (cachePort s p) p = cachePort s p := by
  have h1 : (cachePort (cachePort s p) p).portById = (cachePort s p).portById := by
    rw [cachePort_portById, cachePort_portById, mapSet_set_self]
  have h2 : (cachePort (cachePort s p) p).byCell = (cachePort s p).byCell := by
    rw [cachePort_byCell (cachePort s p) p, getPortsByH3Index_cachePort_self s p hp,
      cachePort_byCell s p, mapSet_set_self]
    congr 1
    simp [List.concat_eq_append, List.filter_append, filter_idem]
  have h3 : (cachePort (cachePort s p) p).nearestMemo = (cachePort s p).nearestMemo := rfl
  exact cacheState_ext _ _ h1 h2 h3

/-- C7: applying the `port.created` handler twice with the same event yields
exactly the cache state of applying it once — the snapshot is overwritten
with the same value and the cell entry is rebuilt identically — and after
one application the created point's id occurs exactly once in its cell's
entry. -/
theorem handlePortCreated_idempotent (geo : Geo) (event : PortCreatedPayload) (s : CacheState) :
    handlePortCreated geo event (handlePortCreated geo event s) = handlePortCreated geo event s ∧
    ((mapGet (handlePortCreated geo event s).byCell
        (geo.latLngToCell event.coordinate)).getD []).countP
      (fun q => decide (q.id = event.id)) = 1 := by
  constructor
  · exact cachePort_active_twice s _ rfl
  · unfold handlePortCreated
    rw [cachePort_byCell, mapGet_set_self, Option.getD_some]
    rw [List.concat_eq_append, List.countP_append]
    have h0 : (((getPortsByH3Index s (geo.latLngToCell event.coordinate)).filter
        (fun q => decide (q.id ≠ event.id))).countP (fun q => decide (q.id = event.id))) = 0 := by
      rw [List.countP_eq_zero]
      intro q hq
      have := (List.mem_filter.1 hq).2
      simp only [decide_eq_true_eq] at this ⊢
      exact this
    rw [h0]
    simp [List.countP_cons]

theorem ringLoopAux_spec (geo : Geo) (s : CacheState) (h3 : String) (maxRing : ℤ) :
    ∀ (fuel start : ℕ), maxRing + 1 - start ≤ fuel →
      (∃ ring : ℕ, start ≤ ring ∧ (ring : ℤ) ≤ maxRing ∧
        (∀ r' : ℕ, start ≤ r' → r' < ring → collectRing geo s h3 r' = []) ∧
        collectRing geo s h3 ring ≠ [] ∧
        ringLoopAux geo s h3 maxRing fuel start = collectRing geo s h3 ring) ∨
      ((∀ r' : ℕ, start ≤ r' → (r' : ℤ) ≤ maxRing → collectRing geo s h3 r' = []) ∧
        ringLoopAux geo s h3 maxRing fuel start = []) := by
  intro fuel
  induction fuel with
  | zero =>
    intro start hle
    right
    refine ⟨?_, rfl⟩
    intro r' hr1 hr2
    exfalso
    omega
  | succ f ih =>
    intro start hle
    rw [ringLoopAux]
    by_cases hst : (start : ℤ) ≤ maxRing
    · rw [if_pos hst]
      by_cases hemp : (collectRing geo s h3 start).isEmpty = true
      · have hnil : collectRing geo s h3 start = [] := List.isEmpty_iff.1 hemp
        rw [if_pos hemp]
        rcases ih (start + 1) (by omega) with ⟨ring, h1, h2, h3', h4, h5⟩ | ⟨hall, hres⟩
        · refine Or.inl ⟨ring, by omega, h2, ?_, h4, h5⟩
          intro r' hr1 hr2
          rcases Nat.eq_or_lt_of_le hr1 with rfl | hlt
          · exact hnil
          · exact h3' r' hlt hr2
        · refine Or.inr ⟨?_, hres⟩
          intro r' hr1 hr2
          rcases Nat.eq_or_lt_of_le hr1 with rfl | hlt
          · exact hnil
          · exact hall r' hlt hr2
      · rw [if_neg hemp]
        refine Or.inl ⟨start, Nat.le_refl _, hst, ?_, ?_, rfl⟩
        · intro r' hr1 hr2
          exact absurd (Nat.lt_of_le_of_lt hr1 hr2) (Nat.lt_irrefl _)
        · intro hn
          rw [hn] at hemp
          exact hemp rfl
    · rw [if_neg hst]
      refine Or.inr ⟨?_, rfl⟩
      intro r' hr1 hr2
      exfalso
      omega

/-- C4: `findNearestPortUsingH3` searches with `maxRing =
min(requiredRings(radiusBound), 10)` for a finite radius bound and `maxRing
= 10` otherwise; it expands rings from 0 upward fetching the full disk of
cells at each step (`collectRing`), and the candidate set it scores is the
collection at the first ring whose disk holds any cached point — every
earlier ring's collection is empty, and no further ring is expanded once
candidates exist (or every disk up to `maxRing` is empty and the candidate
set is empty). -/
theorem findNearestPortUsingH3_ringSearch (geo : Geo) (s : CacheState) (c : Coord)
    (radius : Radius) :
    findNearestPortUsingH3 geo s c radius =
      ((ringLoop geo s (geo.latLngToCell c) (claimedMaxRing radius)).foldl
        (scoreStep geo c (geo.latLngToCell c) radius) none).map (fun x => x.1) ∧
    ((∃ ring : ℕ, (ring : ℤ) ≤ claimedMaxRing radius ∧
        (∀ r' : ℕ, r' < ring → collectRing geo s (geo.latLngToCell c) r' = []) ∧
        collectRing geo s (geo.latLngToCell c) ring ≠ [] ∧
        ringLoop geo s (geo.latLngToCell c) (claimedMaxRing radius) =
          collectRing geo s (geo.latLngToCell c) ring) ∨
      ((∀ ring : ℕ, (ring : ℤ) ≤ claimedMaxRing radius →
          collectRing geo s (geo.latLngToCell c) ring = []) ∧
        ringLoop geo s (geo.latLngToCell c) (claimedMaxRing radius) = [])) := by
  constructor
  · cases radius with
    | fin r => rfl
    | inf => simp [findNearestPortUsingH3, claimedMaxRing]
  · have h := ringLoopAux_spec geo s (geo.latLngToCell c) (claimedMaxRing radius)
      ((claimedMaxRing radius) + 1).toNat 0 (by omega)
    rw [show ringLoopAux geo s (geo.latLngToCell c) (claimedMaxRing radius)
        ((claimedMaxRing radius) + 1).toNat 0 =
      ringLoop geo s (geo.latLngToCell c) (claimedMaxRing radius) from rfl] at h
    rcases h with ⟨ring, _, h2, h3', h4, h5⟩ | ⟨hall, hres⟩
    · exact Or.inl ⟨ring, h2, fun r' hr => h3' r' (Nat.zero_le _) hr, h4, h5⟩
    · exact Or.inr ⟨fun ring h => hall ring (Nat.zero_le _) h, hres⟩

theorem scoreStep_cases (geo : Geo) (c : Coord) (h3 : String) (radius : Radius)
    (acc : Option (NearestPortResult × ℚ)) (p : CachedPort) :
    scoreStep geo c h3 radius acc p = acc ∨
    scoreStep geo c h3 radius acc p =
      some (mkResult p (geo.haversine c p.coordinate) (geo.gridDistance h3 p.h3Index),
        (geo.gridDistance h3 p.h3Index : ℚ) * 1000 + geo.haversine c p.coordinate) := by
  unfold scoreStep
  dsimp only
  split
  · exact Or.inl rfl
  · split
    · exact Or.inr rfl
    · exact Or.inl rfl

theorem scoreFold_mem (geo : Geo) (c : Coord) (h3 : String) (radius : Radius) :
    ∀ (ports : List CachedPort) (acc : Option (NearestPortResult × ℚ))
      (n : NearestPortResult) (sc : ℚ),
      ports.foldl (scoreStep geo c h3 radius) acc = some (n, sc) →
      acc = some (n, sc) ∨
        ∃ p ∈ ports, n.portId = p.id ∧ n.h3Index = p.h3Index := by
  intro ports
  induction ports with
  | nil =>
    intro acc n sc h
    exact Or.inl h
  | cons p t ih =>
    intro acc n sc h
    rw [List.foldl_cons] at h
    rcases ih (scoreStep geo c h3 radius acc p) n sc h with h1 | ⟨q, hq, hid⟩
    · rcases scoreStep_cases geo c h3 radius acc p with he | he
      · rw [he] at h1
        exact Or.inl h1
      · rw [he] at h1
        simp only [Option.some.injEq, Prod.mk.injEq] at h1
        refine Or.inr ⟨p, List.mem_cons_self p t, ?_, ?_⟩
        · rw [← h1.1]
          rfl
        · rw [← h1.1]
          rfl
    · exact Or.inr ⟨q, List.mem_cons_of_mem _ hq, hid⟩

theorem ringLoopAux_mem (geo : Geo) (s : CacheState) (h3 : String) (maxRing : ℤ) :
    ∀ (fuel start : ℕ) (p : CachedPort), p ∈ ringLoopAux geo s h3 maxRing fuel start →
      ∃ ring : ℕ, p ∈ collectRing geo s h3 ring := by
  intro fuel
  induction fuel with
  | zero =>
    intro start p h
    exact absurd h (by simp [ringLoopAux])
  | succ f ih =>
    intro start p h
    rw [ringLoopAux] at h
    by_cases hst : (start : ℤ) ≤ maxRing
    · rw [if_pos hst] at h
      by_cases hemp : (collectRing geo s h3 start).isEmpty = true
      · rw [if_pos hemp] at h
        exact ih (start + 1) p h
      · rw [if_neg hemp] at h
        exact ⟨start, h⟩
    · rw [if_neg hst] at h
      exact absurd h (by simp)

theorem getPortsByH3Index_mem (s : CacheState) (cell : String) (p : CachedPort)
    (h : p ∈ getPortsByH3Index s cell) :
    ∃ l, mapGet s.byCell cell = some l ∧ p ∈ l ∧ p.isActive = true := by
  unfold getPortsByH3Index at h
  cases hm : mapGet s.byCell cell with
  | none =>
    rw [hm] at h
    exact absurd h (by simp)
  | some l =>
    rw [hm] at h
    simp only [Option.getD_some] at h
    exact ⟨l, rfl, (List.mem_filter.1 h).1, (List.mem_filter.1 h).2⟩

theorem findNearestPortUsingH3_eq (geo : Geo) (s : CacheState) (c : Coord) (radius : Radius) :
    findNearestPortUsingH3 geo s c radius =
      ((ringLoop geo s (geo.latLngToCell c) (claimedMaxRing radius)).foldl
        (scoreStep geo c (geo.latLngToCell c) radius) none).map (fun x => x.1) := by
  cases radius with
  | fin r => rfl
  | inf => simp [findNearestPortUsingH3, claimedMaxRing]

theorem findNearestPortUsingH3_source (geo : Geo) (s : CacheState) (c : Coord)
    (radius : Radius) (n : NearestPortResult)
    (h : findNearestPortUsingH3 geo s c radius = some n) :
    ∃ cell l p, mapGet s.byCell cell = some l ∧ p ∈ l ∧
      n.portId = p.id ∧ n.h3Index = p.h3Index := by
  rw [findNearestPortUsingH3_eq] at h
  cases hf : (ringLoop geo s (geo.latLngToCell c) (claimedMaxRing radius)).foldl
      (scoreStep geo c (geo.latLngToCell c) radius) none with
  | none =>
    rw [hf] at h
    exact absurd h (by simp)
  | some x =>
    rw [hf] at h
    obtain ⟨n0, sc⟩ := x
    have hn : n0 = n := by simpa using h
    subst hn
    rcases scoreFold_mem geo c (geo.latLngToCell c) radius _ none n0 sc hf with
      h1 | ⟨p, hp, hid, hcell⟩
    · exact absurd h1 (by simp)
    · rcases ringLoopAux_mem geo s (geo.latLngToCell c) _ _ 0 p hp with ⟨ring, hring⟩
      rcases List.mem_flatMap.1 hring with ⟨cell, _, hpc⟩
      rcases getPortsByH3Index_mem s cell p hpc with ⟨l, hl, hpl, _⟩
      exact ⟨cell, l, p, hl, hpl, hid, hcell⟩

theorem findNearestPortUsingH3_ne_of_absent (geo : Geo) (s : CacheState) (c : Coord)
    (radius : Radius) (badId : String)
    (habs : ∀ cell l, mapGet s.byCell cell = some l → ∀ p ∈ l, p.id ≠ badId) :
    ∀ n, findNearestPortUsingH3 geo s c radius = some n → n.portId ≠ badId := by
  intro n hn hbad
  rcases findNearestPortUsingH3_source geo s c radius n hn with ⟨cell, l, p, hl, hpl, hid, _⟩
  exact habs cell l hl p hpl (hid ▸ hbad)

theorem findNearestPort_h3Only_eq (geo : Geo) (store : Store) (cfg : Option String)
    (s : CacheState) (c : Coord) (radius : Radius) (hMode : isH3Only cfg = true) :
    findNearestPort geo store cfg s c radius =
      .ok (stalenessGuardAndFinish geo store c radius s
        { memoReads := 0, getByIdCalls := [], nearbyCalls := [], h3Searches := 1 }
        (findNearestPortUsingH3 geo s c radius)) := by
  unfold findNearestPort mainSearch
  rw [hMode]
  simp only [if_true]
  cases hnp : findNearestPortUsingH3 geo s c radius with
  | some n => rfl
  | none => rfl

theorem stalenessGuard_trace (geo : Geo) (store : Store) (c : Coord) (radius : Radius)
    (s : CacheState) (t : Trace) (np : Option NearestPortResult) :
    ∃ res s' tr, stalenessGuardAndFinish geo store c radius s t np = (res, s', tr) ∧
      tr.memoReads = t.memoReads ∧ tr.nearbyCalls = t.nearbyCalls ∧
      (∀ n, np = some n → tr.getByIdCalls = t.getByIdCalls ++ [n.portId]) := by
  cases np with
  | none => exact ⟨_, _, _, rfl, rfl, rfl, fun n h => by cases h⟩
  | some n =>
    simp only [stalenessGuardAndFinish]
    split
    · exact ⟨_, _, _, rfl, rfl, rfl, fun m h => by cases h; rfl⟩
    · split
      · exact ⟨_, _, _, rfl, rfl, rfl, fun m h => by cases h; rfl⟩
      · exact ⟨_, _, _, rfl, rfl, rfl, fun m h => by cases h; rfl⟩
    · exact ⟨_, _, _, rfl, rfl, rfl, fun m h => by cases h; rfl⟩

theorem stalenessGuard_gone_eq (geo : Geo) (store : Store) (c : Coord) (radius : Radius)
    (s : CacheState) (t : Trace) (n : NearestPortResult)
    (hGone : store.getPortById n.portId = .ok none) (hNe : ¬ n.h3Index = "") :
    stalenessGuardAndFinish geo store c radius s t (some n) =
      (match findNearestPortUsingH3 geo
          (invalidateNearestPortCache
            (invalidateH3IndexCache (invalidatePortCache s n.portId) n.h3Index) c) c radius with
      | some n2 =>
        (some n2,
          cacheNearestPortResult
            (invalidateNearestPortCache
              (invalidateH3IndexCache (invalidatePortCache s n.portId) n.h3Index) c)
            c n2 radius,
          { t with getByIdCalls := t.getByIdCalls ++ [n.portId],
                   h3Searches := t.h3Searches + 1 })
      | none =>
        (none,
          invalidateNearestPortCache
            (invalidateH3IndexCache (invalidatePortCache s n.portId) n.h3Index) c,
          { t with getByIdCalls := t.getByIdCalls ++ [n.portId],
                   h3Searches := t.h3Searches + 1 })) := by
  simp only [stalenessGuardAndFinish]
  rw [hGone]
  dsimp only
  rw [if_neg hNe]

theorem stalenessGuard_error_eq (geo : Geo) (store : Store) (c : Coord) (radius : Radius)
    (s : CacheState) (t : Trace) (n : NearestPortResult)
    (hErr : store.getPortById n.portId = .error ()) :
    stalenessGuardAndFinish geo store c radius s t (some n) =
      (none, s, { t with getByIdCalls := t.getByIdCalls ++ [n.portId] }) := by
  simp only [stalenessGuardAndFinish]
  rw [hErr]

/-- C9: with `LOCATION_H3_ONLY` unset, or set to any casing of "true",
`findNearestPort` runs in grid-only mode: the query completes without
consulting the memoized-result cache and without a single call to the
Authoritative Store fallback ladder — candidates come only from the
grid-cell cache — while the staleness-guard existence check still runs on
any found candidate (its id is looked up in the store). -/
theorem findNearestPort_h3OnlyDefault (geo : Geo) (store : Store) (cfg : Option String)
    (s : CacheState) (c : Coord) (radius : Radius)
    (h : cfg = none ∨ ∃ v, cfg = some v ∧ v.toLower = "true") :
    ∃ res s' tr, findNearestPort geo store cfg s c radius = .ok (res, s', tr) ∧
      tr.memoReads = 0 ∧ tr.nearbyCalls = [] ∧
      (∀ w, findNearestPortUsingH3 geo s c radius = some w → w.portId ∈ tr.getByIdCalls) := by
  have hMode : isH3Only cfg = true := by
    rcases h with rfl | ⟨v, rfl, hv⟩
    · rfl
    · simp [isH3Only, hv]
  rw [findNearestPort_h3Only_eq geo store cfg s c radius hMode]
  rcases stalenessGuard_trace geo store c radius s
      { memoReads := 0, getByIdCalls := [], nearbyCalls := [], h3Searches := 1 }
      (findNearestPortUsingH3 geo s c radius) with ⟨res, s', tr, heq, h1, h2, h3⟩
  refine ⟨res, s', tr, by rw [heq], h1, h2, ?_⟩
  intro w hw
  rw [h3 w hw]
  simp

/-- C10: when the staleness guard finds the winning candidate missing from
the Authoritative Store (a "does not exist" answer), the run performs
exactly one store lookup — the guard on that candidate — invalidates the
caches and finishes with the single re-search's outcome: a non-null
re-search result is memoized under the query's key and returned with no
second existence check against the store. -/
theorem findNearestPort_reSearchTrusted (geo : Geo) (store : Store) (cfg : Option String)
    (s : CacheState) (c : Coord) (radius : Radius) (w : NearestPortResult)
    (hMode : isH3Only cfg = true)
    (hWin : findNearestPortUsingH3 geo s c radius = some w)
    (hGone : store.getPortById w.portId = .ok none)
    (hNe : ¬ w.h3Index = "") :
    findNearestPort geo store cfg s c radius =
      .ok (match findNearestPortUsingH3 geo
            (invalidateNearestPortCache
              (invalidateH3IndexCache (invalidatePortCache s w.portId) w.h3Index) c)
            c radius with
          | some n2 =>
            (some n2,
              cacheNearestPortResult
                (invalidateNearestPortCache
                  (invalidateH3IndexCache (invalidatePortCache s w.portId) w.h3Index) c)
                c n2 radius,
              { memoReads := 0, getByIdCalls := [w.portId], nearbyCalls := [],
                h3Searches := 2 })
          | none =>
            (none,
              invalidateNearestPortCache
                (invalidateH3IndexCache (invalidatePortCache s w.portId) w.h3Index) c,
              { memoReads := 0, getByIdCalls := [w.portId], nearbyCalls := [],
                h3Searches := 2 })) := by
  rw [findNearestPort_h3Only_eq geo store cfg s c radius hMode, hWin,
    stalenessGuard_gone_eq geo store c radius s _ w hGone hNe]
  rfl

/-- C3 (amended): when the staleness-guard store call on the winning
candidate throws (collaborator unavailable), `findNearestPort` does not
return the candidate and does not invalidate any cache entry: it discards
the candidate ("treating as missing") and returns NotFound with the cache
state unchanged, after that single store lookup. -/
theorem findNearestPort_guardErrorDiscards (geo : Geo) (store : Store) (cfg : Option String)
    (s : CacheState) (c : Coord) (radius : Radius) (w : NearestPortResult)
    (hMode : isH3Only cfg = true)
    (hWin : findNearestPortUsingH3 geo s c radius = some w)
    (hErr : store.getPortById w.portId = .error ()) :
    findNearestPort geo store cfg s c radius =
      .ok (none, s,
        { memoReads := 0, getByIdCalls := [w.portId], nearbyCalls := [],
          h3Searches := 1 }) := by
  rw [findNearestPort_h3Only_eq geo store cfg s c radius hMode, hWin,
    stalenessGuard_error_eq geo store c radius s _ w hErr]
  rfl

/-- C1 (amended): when the winning candidate's id has been removed from the
Authoritative Store and every cache record carrying that id sits under that
candidate's cell entry, `findNearestPort` never returns that id: it deletes
the id's snapshot, the candidate's cell entry and the coordinate's four
fixed memo radius buckets (50/100/200/500), performs exactly one re-search,
and afterwards no memo entry under those buckets points at the removed id —
though, as the counterexample shows, a memo entry under any other radius
key for the same coordinate may still point at it. -/
theorem findNearestPort_stalenessGuard (geo : Geo) (store : Store) (cfg : Option String)
    (s : CacheState) (c : Coord) (radius : Radius) (w : NearestPortResult)
    (hMode : isH3Only cfg = true)
    (hWin : findNearestPortUsingH3 geo s c radius = some w)
    (hGone : store.getPortById w.portId = .ok none)
    (hNe : ¬ w.h3Index = "")
    (hCell : ∀ e ∈ s.byCell, ∀ p ∈ e.2, p.id = w.portId → e.1 = w.h3Index) :
    ∃ res s' tr, findNearestPort geo store cfg s c radius = .ok (res, s', tr) ∧
      (∀ r', res = some r' → r'.portId ≠ w.portId) ∧
      mapGet s'.portById w.portId = none ∧
      mapGet s'.byCell w.h3Index = none ∧
      (∀ r : ℚ, r ∈ invalidationRadiusValues → ∀ v,
        mapGet s'.nearestMemo (getNearestPortCacheKey c (Radius.fin r)) = some v →
          v.portId ≠ w.portId) ∧
      tr.h3Searches = 2 ∧ tr.getByIdCalls = [w.portId] := by
  have habs : ∀ cell l,
      mapGet (invalidateNearestPortCache
        (invalidateH3IndexCache (invalidatePortCache s w.portId) w.h3Index) c).byCell cell
        = some l → ∀ p ∈ l, p.id ≠ w.portId := by
    intro cell l hm p hp hbad
    by_cases hc : cell = w.h3Index
    · subst hc
      rw [show (invalidateNearestPortCache
          (invalidateH3IndexCache (invalidatePortCache s w.portId) w.h3Index) c).byCell
          = mapDel s.byCell w.h3Index from rfl, mapGet_del_self] at hm
      cases hm
    · rw [show (invalidateNearestPortCache
          (invalidateH3IndexCache (invalidatePortCache s w.portId) w.h3Index) c).byCell
          = mapDel s.byCell w.h3Index from rfl, mapGet_del_ne _ _ _ hc] at hm
      exact hc (hCell (cell, l) (mapGet_mem _ _ _ hm) p hp hbad)
  rw [findNearestPort_h3Only_eq geo store cfg s c radius hMode, hWin,
    stalenessGuard_gone_eq geo store c radius s _ w hGone hNe]
  cases hres : findNearestPortUsingH3 geo
      (invalidateNearestPortCache
        (invalidateH3IndexCache (invalidatePortCache s w.portId) w.h3Index) c) c radius with
  | some n2 =>
    refine ⟨some n2, _, _, rfl, ?_, ?_, ?_, ?_, rfl, by simp⟩
    · intro r' hr
      cases hr
      exact findNearestPortUsingH3_ne_of_absent geo _ c radius w.portId habs n2 hres
    · exact mapGet_del_self _ _
    · exact mapGet_del_self _ _
    · intro r hr v hv
      by_cases hk : getNearestPortCacheKey c (Radius.fin r) = getNearestPortCacheKey c radius
      · rw [show (cacheNearestPortResult
            (invalidateNearestPortCache
              (invalidateH3IndexCache (invalidatePortCache s w.portId) w.h3Index) c)
            c n2 radius).nearestMemo
            = mapSet (invalidateNearestPortCache
              (invalidateH3IndexCache (invalidatePortCache s w.portId) w.h3Index) c).nearestMemo
              (getNearestPortCacheKey c radius) n2 from rfl, hk, mapGet_set_self] at hv
        cases hv
        exact findNearestPortUsingH3_ne_of_absent geo _ c radius w.portId habs n2 hres
      · rw [show (cacheNearestPortResult
            (invalidateNearestPortCache
              (invalidateH3IndexCache (invalidatePortCache s w.portId) w.h3Index) c)
            c n2 radius).nearestMemo
            = mapSet (invalidateNearestPortCache
              (invalidateH3IndexCache (invalidatePortCache s w.portId) w.h3Index) c).nearestMemo
              (getNearestPortCacheKey c radius) n2 from rfl,
          mapGet_set_ne _ _ _ _ hk,
          invalidateNearestPortCache_bucket_none _ c r hr] at hv
        cases hv
  | none =>
    refine ⟨none, _, _, rfl, ?_, ?_, ?_, ?_, rfl, by simp⟩
    · intro r' hr
      cases hr
    · exact mapGet_del_self _ _
    · exact mapGet_del_self _ _
    · intro r hr v hv
      rw [invalidateNearestPortCache_bucket_none _ c r hr] at hv
      cases hv

theorem insertSortedBy_perm {α : Type} (key : α → ℚ) (a : α) (l : List α) :
    (insertSortedBy key a l).Perm (a :: l) := by
  induction l with
  | nil => exact List.Perm.refl _
  | cons b t ih =>
    rw [insertSortedBy]
    split
    · exact List.Perm.refl _
    · exact (List.Perm.cons b ih).trans (List.Perm.swap a b t)

theorem sortBy_foldl_perm {α : Type} (key : α → ℚ) :
    ∀ (l acc : List α),
      (l.foldl (fun acc a => insertSortedBy key a acc) acc).Perm (acc ++ l) := by
  intro l
  induction l with
  | nil => intro acc; simp
  | cons a t ih =>
    intro acc
    rw [List.foldl_cons]
    refine ((ih (insertSortedBy key a acc)).trans ?_)
    refine (List.Perm.append_right t (insertSortedBy_perm key a acc)).trans ?_
    exact List.perm_middle.symm

theorem sortBy_perm {α : Type} (key : α → ℚ) (l : List α) : (sortBy key l).Perm l := by
  simpa using sortBy_foldl_perm key l []

theorem insertSortedBy_pairwise {α : Type} (key : α → ℚ) (a : α) (l : List α)
    (h : l.Pairwise (fun x y => key x ≤ key y)) :
    (insertSortedBy key a l).Pairwise (fun x y => key x ≤ key y) := by
  induction l with
  | nil => simp [insertSortedBy]
  | cons b t ih =>
    rw [insertSortedBy]
    rcases List.pairwise_cons.1 h with ⟨hb, ht⟩
    split
    case isTrue hab =>
      refine List.Pairwise.cons ?_ h
      intro y hy
      rcases List.mem_cons.1 hy with rfl | hy'
      · exact le_of_lt hab
      · exact (le_of_lt hab).trans (hb y hy')
    case isFalse hab =>
      refine List.Pairwise.cons ?_ (ih ht)
      intro y hy
      have hy2 := (insertSortedBy_perm key a t).mem_iff.1 hy
      rcases List.mem_cons.1 hy2 with rfl | hy'
      · exact le_of_not_lt hab
      · exact hb y hy'

theorem sortBy_sorted {α : Type} (key : α → ℚ) (l : List α) :
    (sortBy key l).Pairwise (fun x y => key x ≤ key y) := by
  have haux : ∀ (l acc : List α), acc.Pairwise (fun x y => key x ≤ key y) →
      (l.foldl (fun acc a => insertSortedBy key a acc) acc).Pairwise
        (fun x y => key x ≤ key y) := by
    intro l
    induction l with
    | nil => intro acc h; exact h
    | cons a t ih =>
      intro acc h
      rw [List.foldl_cons]
      exact ih _ (insertSortedBy_pairwise key a acc h)
  exact haux l [] List.Pairwise.nil

section

attribute [local semireducible] Rat.add Rat.mul Rat.sub Rat.inv

/-- C5: over the five-candidate cache at haversine distances 10, 150, 99.9,
0 and 100.1 km, `findPortsInRadius` at radius 100 returns exactly the three
candidates within [0, 100] km sorted ascending by distance — 0, 10,
99.9 km; in general its output is a permutation of the candidates collected
from the full `requiredRings(radius)` disk that pass the `haversine ≤
radius` filter, it is sorted ascending by haversine distance, and every
returned match is within the radius. -/
theorem findPortsInRadius_spec :
    ((findPortsInRadius geoR cacheR coordR 100).map (fun r => (r.portId, r.distanceKm))
      = [("Pd", 0), ("Pa", 10), ("Pc", 999/10)]) ∧
    (∀ (geo : Geo) (s : CacheState) (c : Coord) (radiusKm : ℚ),
      (findPortsInRadius geo s c radiusKm).Pairwise
        (fun x y => x.distanceKm ≤ y.distanceKm) ∧
      (findPortsInRadius geo s c radiusKm).Perm
        ((((geo.gridDisk (geo.latLngToCell c) (calculateRequiredH3Rings radiusKm)).flatMap
            (fun cell => getPortsByH3Index s cell)).filter
            (fun p => decide (geo.haversine c p.coordinate ≤ radiusKm))).map
          (fun p => mkResult p (geo.haversine c p.coordinate)
            (geo.gridDistance (geo.latLngToCell c) p.h3Index))) ∧
      ∀ x ∈ findPortsInRadius geo s c radiusKm, x.distanceKm ≤ radiusKm) := by
  constructor
  · decide
  · intro geo s c radiusKm
    refine ⟨sortBy_sorted _ _, sortBy_perm _ _, ?_⟩
    intro x hx
    have hx2 := (sortBy_perm (fun r : NearestPortResult => r.distanceKm)
      ((((geo.gridDisk (geo.latLngToCell c) (calculateRequiredH3Rings radiusKm)).flatMap
          (fun cell => getPortsByH3Index s cell)).filter
          (fun p => decide (geo.haversine c p.coordinate ≤ radiusKm))).map
        (fun p => mkResult p (geo.haversine c p.coordinate)
          (geo.gridDistance (geo.latLngToCell c) p.h3Index)))).mem_iff.1 hx
    rcases List.mem_map.1 hx2 with ⟨p, hp, rfl⟩
    have hq := (List.mem_filter.1 hp).2
    simp only [decide_eq_true_eq] at hq
    exact hq

/-- C2: in the scoring of `findNearestPortUsingH3`, grid distance dominates
haversine: with three cached candidates at grid distance 0, 1, 2 from the
query cell and haversine distances 4, 0.5, 0.1 km, the composite score
`gridDist * 1000 + haversine` makes the grid-distance-0 candidate the
minimum-score eligible one, and `findNearestPort` returns it (grid distance
0, 4 km) despite it being the farthest in raw kilometres. -/
theorem findNearestPort_gridDistanceDominates :
    (findNearestPort geoG storeG none cacheG coordG Radius.inf).map
      (fun out => Option.map (fun r => (r.portId, r.h3Distance, r.distanceKm)) out.1)
      = .ok (some ("P0", 0, 4)) := by
  decide

/-- Witness for C9: a concrete grid-only run with the configuration
variable unset. -/
theorem findNearestPort_h3OnlyDefault_witness :
    ∃ res s' tr, findNearestPort geoW storeGone none cacheW1 coordW Radius.inf
        = .ok (res, s', tr) ∧
      tr.memoReads = 0 ∧ tr.nearbyCalls = [] ∧
      (∀ w, findNearestPortUsingH3 geoW cacheW1 coordW Radius.inf = some w →
        w.portId ∈ tr.getByIdCalls) :=
  findNearestPort_h3OnlyDefault geoW storeGone none cacheW1 coordW Radius.inf (Or.inl rfl)

/-- Witness for C10: the winner "P" is found missing, and the lone
re-search's winner "Q" is memoized and returned even though the store
(which would report "Q" missing too) is never asked about it — the trace
holds the single lookup of "P". -/
theorem findNearestPort_reSearchTrusted_witness :
    (findNearestPort geoW storeGone none cacheW2 coordW Radius.inf).map
      (fun out => (Option.map (fun r => r.portId) out.1, out.2.2.getByIdCalls,
        Option.map (fun r => r.portId)
          (mapGet out.2.1.nearestMemo (getNearestPortCacheKey coordW Radius.inf))))
      = .ok (some "Q", ["P"], some "Q") := by
  rw [findNearestPort_reSearchTrusted geoW storeGone none cacheW2 coordW Radius.inf resW
    rfl (by decide) rfl (by decide)]
  decide

/-- C3 (counterexample): the grid search finds the cached candidate "P"
and the staleness-guard store call throws, yet `findNearestPort` returns
NotFound rather than the candidate — the trace shows the candidate was
found and looked up. -/
theorem findNearestPort_guardError_counter :
    findNearestPortUsingH3 geoW cacheW1 coordW Radius.inf = some resW ∧
    storeErr.getPortById "P" = .error () ∧
    (findNearestPort geoW storeErr none cacheW1 coordW Radius.inf).map
      (fun out => (out.1, out.2.2.getByIdCalls)) = .ok (none, ["P"]) := by
  refine ⟨by decide, rfl, by decide⟩

/-- Witness for the amended C3 at a concrete run with a throwing store. -/
theorem findNearestPort_guardErrorDiscards_witness :
    findNearestPort geoW storeErr none cacheW1 coordW Radius.inf =
      .ok (none, cacheW1,
        { memoReads := 0, getByIdCalls := ["P"], nearbyCalls := [], h3Searches := 1 }) :=
  findNearestPort_guardErrorDiscards geoW storeErr none cacheW1 coordW Radius.inf resW
    rfl (by decide) rfl

/-- C1 (counterexample): the chosen winning candidate "P" has been removed
from the store (the guard sees "does not exist" and the trace shows "P" was
the id checked), yet after the run the memo entry for this very coordinate
under its radius key 75 — not one of the four fixed invalidation buckets —
still points at "P": the claim's "afterwards no memo entry points at the
removed point" fails. -/
theorem findNearestPort_staleMemo_counter :
    storeGone.getPortById "P" = .ok none ∧
    (findNearestPort geoW storeGone none cacheW1 coordW (Radius.fin 75)).map
      (fun out => (Option.map (fun r => r.portId) out.1,
        Option.map (fun r => r.portId)
          (mapGet out.2.1.nearestMemo (getNearestPortCacheKey coordW (Radius.fin 75))),
        out.2.2.getByIdCalls))
      = .ok (none, some "P", ["P"]) := by
  refine ⟨rfl, by decide⟩

/-- Witness for the amended C1 at a concrete stale-candidate run. -/
theorem findNearestPort_stalenessGuard_witness :
    ∃ res s' tr, findNearestPort geoW storeGone none cacheW1 coordW (Radius.fin 75)
        = .ok (res, s', tr) ∧
      (∀ r', res = some r' → r'.portId ≠ resW.portId) ∧
      mapGet s'.portById resW.portId = none ∧
      mapGet s'.byCell resW.h3Index = none ∧
      (∀ r : ℚ, r ∈ invalidationRadiusValues → ∀ v,
        mapGet s'.nearestMemo (getNearestPortCacheKey coordW (Radius.fin r)) = some v →
          v.portId ≠ resW.portId) ∧
      tr.h3Searches = 2 ∧ tr.getByIdCalls = [resW.portId] :=
  findNearestPort_stalenessGuard geoW storeGone none cacheW1 coordW (Radius.fin 75) resW
    rfl (by decide) rfl (by decide) (by decide)

end

end PortFinder
